import Mathlib

/-!
Verification of the per-unit merge pipeline of `src/python/fontMerger.py`.

The script builds, for each (locale, weight) unit, a consolidated font:
it filters the weight directory's files by name, ranks them with a
per-locale priority table, validates unitsPerEm, then walks the ranked
candidates accumulating the set of covered code points, subsetting each
candidate to its fresh contribution, and finally merges the subsets.

The embedding below translates those functions directly; mutable state
(the `cumulative_codepoints` set and the `subset_fonts` list) becomes an
explicit `LoopState` threaded through a fold.
-/

namespace FontMerger

/-! ### String utilities

Python's `in` (substring) and `endswith` on lowercased names, modelled on
`List Char`. -/

/-- Whether `p` is a prefix of `s`, by character equality. -/
def prefixOf : List Char → List Char → Bool
  | [], _ => true
  | _ :: _, [] => false
  | a :: p, b :: s => a == b && prefixOf p s

/-- Whether `p` occurs as a contiguous substring of `s` (Python `p in s`). -/
def containsSub (p : List Char) : List Char → Bool
  | [] => prefixOf p []
  | b :: s => prefixOf p (b :: s) || containsSub p s

/-- Whether `s` ends with `p` (Python `s.endswith(p)`). -/
def endsWith (p s : List Char) : Bool :=
  prefixOf p.reverse s.reverse

/-- Lowercase a file name, as Python `name.lower()` (ASCII suffices here). -/
def lowerName (name : String) : List Char :=
  name.toList.map Char.toLower

/-! ### Candidate filtering and ranking (source lines 22-24 and 26-56) -/

/-- Source `is_valid_font`: the lowercased basename must not contain
"condensed" and must end with ".ttf". Inside `process_locale_weight` it is
applied to raw directory entries, so the basename is the name itself. -/
def is_valid_font (name : String) : Bool :=
  let n := lowerName name
  !containsSub "condensed".toList n && endsWith ".ttf".toList n

/-- A ranking table: association list from script-family key to priority,
in insertion order (Python dicts preserve insertion order). -/
abbrev PriorityTable := List (List Char × Nat)

/-- Source `sort_key`: the value of the first table key occurring as a
substring of the lowercased name; 99 when no key matches. -/
def sort_key (priority : PriorityTable) (name : String) : Nat :=
  match priority.find? (fun kv => containsSub kv.1 (lowerName name)) with
  | some kv => kv.2
  | none => 99

/-- Whether some table key occurs in the lowercased name. -/
def matchesTable (priority : PriorityTable) (name : String) : Bool :=
  priority.any (fun kv => containsSub kv.1 (lowerName name))

/-- The `sc` entry of source `locale_priority`. -/
def scPriority : PriorityTable :=
  [("notosanssc".toList, 0), ("notosanstc".toList, 1), ("notosanshk".toList, 2),
   ("notosansjp".toList, 3), ("notosanskr".toList, 4)]

/-- The `tc` entry of source `locale_priority`. -/
def tcPriority : PriorityTable :=
  [("notosanstc".toList, 0), ("notosanshk".toList, 1), ("notosanssc".toList, 2),
   ("notosansjp".toList, 3), ("notosanskr".toList, 4)]

/-- The `hk` entry of source `locale_priority`. -/
def hkPriority : PriorityTable :=
  [("notosanshk".toList, 0), ("notosanstc".toList, 1), ("notosanssc".toList, 2),
   ("notosansjp".toList, 3), ("notosanskr".toList, 4)]

/-- The `jp` entry of source `locale_priority`. -/
def jpPriority : PriorityTable :=
  [("notosansjp".toList, 0), ("notosanssc".toList, 1), ("notosanstc".toList, 2),
   ("notosanshk".toList, 3), ("notosanskr".toList, 4)]

/-- The `kr` entry of source `locale_priority`. -/
def krPriority : PriorityTable :=
  [("notosanskr".toList, 0), ("notosanssc".toList, 1), ("notosanstc".toList, 2),
   ("notosanshk".toList, 3), ("notosansjp".toList, 4)]

/-- Source `locale_priority`: per-locale ranking tables. -/
def locale_priority : List (String × PriorityTable) :=
  [("sc", scPriority), ("tc", tcPriority), ("hk", hkPriority),
   ("jp", jpPriority), ("kr", krPriority)]

/-! ### Stable sort

Python's `list.sort(key=...)` is a stable ascending sort by key; any stable
ascending sort produces the same list, so it is modelled by stable insertion
sort. -/

/-- Insert `a` into `l` before the first element whose key is not smaller. -/
def insertK (k : α → Nat) (a : α) : List α → List α
  | [] => [a]
  | b :: l => if k a ≤ k b then a :: b :: l else b :: insertK k a l

/-- Stable insertion sort by `k` (ascending). -/
def sortK (k : α → Nat) : List α → List α
  | [] => []
  | a :: l => insertK k a (sortK k l)

theorem insertK_perm (k : α → Nat) (a : α) (l : List α) :
    (insertK k a l).Perm (a :: l) := by
  induction l with
  | nil => exact List.Perm.refl _
  | cons b t ih =>
    by_cases h : k a ≤ k b
    · simp [insertK, h]
    · simp only [insertK, h, if_false]
      exact (ih.cons b).trans (List.Perm.swap a b t)

theorem sortK_perm (k : α → Nat) (l : List α) : (sortK k l).Perm l := by
  induction l with
  | nil => exact List.Perm.refl _
  | cons a t ih => exact (insertK_perm k a (sortK k t)).trans (ih.cons a)

theorem mem_insertK (k : α → Nat) (a x : α) (l : List α) :
    x ∈ insertK k a l → x = a ∨ x ∈ l := by
  intro hx
  have := (insertK_perm k a l).mem_iff.mp hx
  simpa using this

theorem insertK_sorted (k : α → Nat) (a : α) (l : List α)
    (h : l.Pairwise (fun x y => k x ≤ k y)) :
    (insertK k a l).Pairwise (fun x y => k x ≤ k y) := by
  induction l with
  | nil => simp [insertK]
  | cons b t ih =>
    rcases List.pairwise_cons.mp h with ⟨hb, ht⟩
    by_cases hab : k a ≤ k b
    · simp only [insertK, hab, if_true]
      refine List.pairwise_cons.mpr ⟨?_, h⟩
      intro x hx
      rcases List.mem_cons.mp hx with rfl | hx
      · exact hab
      · exact le_trans hab (hb x hx)
    · simp only [insertK, hab, if_false]
      refine List.pairwise_cons.mpr ⟨?_, ih ht⟩
      intro x hx
      rcases mem_insertK k a x t hx with rfl | hx
      · exact le_of_not_le hab
      · exact hb x hx

theorem sortK_sorted (k : α → Nat) (l : List α) :
    (sortK k l).Pairwise (fun x y => k x ≤ k y) := by
  induction l with
  | nil => simp [sortK]
  | cons a t ih => exact insertK_sorted k a (sortK k t) ih

theorem insertK_filter_key (k : α → Nat) (a : α) (l : List α) (v : Nat) :
    (insertK k a l).filter (fun x => k x == v) =
      if k a == v then a :: l.filter (fun x => k x == v)
      else l.filter (fun x => k x == v) := by
  induction l with
  | nil => by_cases h : k a == v <;> simp [insertK, List.filter, h]
  | cons b t ih =>
    by_cases hab : k a ≤ k b
    · by_cases h : k a == v <;> simp [insertK, hab, List.filter, h]
    · have hlt : k b < k a := lt_of_not_le hab
      by_cases hkb : k b == v
      · have ha : (k a == v) = false := by
          have hbv : k b = v := by simpa using hkb
          simp only [beq_eq_false_iff_ne, ne_eq]
          omega
        simp [insertK, hab, List.filter_cons, hkb, ih, ha]
      · by_cases h : k a == v <;>
          simp [insertK, hab, List.filter_cons, hkb, ih, h]

/-- Stability of `sortK`: elements with any fixed key value keep their
original relative order. -/
theorem sortK_filter_key (k : α → Nat) (l : List α) (v : Nat) :
    (sortK k l).filter (fun x => k x == v) = l.filter (fun x => k x == v) := by
  induction l with
  | nil => rfl
  | cons a t ih =>
    simp only [sortK, insertK_filter_key, List.filter]
    by_cases h : k a == v <;> simp [h, ih]

/-! ### Per-candidate loop (source lines 58-125)

A `FileEntry` describes one directory entry together with the behaviour of
the external fontTools library on it: whether `TTFont(path)` raises during
the validation pass (`readErr`) or during the extraction loop's re-open
(`loopReadErr`), the declared unitsPerEm, whether a Unicode cmap subtable
exists, the set of code points it maps (`coverage`), and whether the
subset/save step raises (`subsetErr`, covering the second `TTFont(path)`,
`Subsetter` work and `subset_font.save`). -/

structure FileEntry where
  name : String
  readErr : Bool
  upem : Nat
  hasCmap : Bool
  coverage : Finset Nat
  loopReadErr : Bool
  subsetErr : Bool
deriving DecidableEq

/-- The loop's mutable state: `cumulative_codepoints` and `subset_fonts`
(the latter as the saved subset file names, in append order). -/
structure LoopState where
  cumulative : Finset Nat
  subsets : List String
deriving DecidableEq

/-- State at loop entry: empty set, empty list. -/
def initLoopState : LoopState := ⟨∅, []⟩

/-- The file name the candidate's subset is saved under
(source: `subset_filename = f"subset_{os.path.basename(path)}"`). -/
def subsetName (f : FileEntry) : String := "subset_" ++ f.name

/-- One iteration of the extraction loop (source lines 85-125). All
exceptions inside the iteration are caught by its `except` clause, so a
raise merely ends the iteration: a raise at the re-open/cmap stage leaves
the state untouched, while a raise at the subset/save stage happens after
`cumulative_codepoints.update(unique_cps)` and so keeps the updated set
but appends no subset file. A missing Unicode cmap or an empty
`unique_cps` is an ordinary skip. -/
def processCandidate (st : LoopState) (f : FileEntry) : LoopState :=
  if f.loopReadErr then st
  else if !f.hasCmap then st
  else
    let uniq := f.coverage \ st.cumulative
    if uniq = ∅ then st
    else
      let cum := st.cumulative ∪ uniq
      if f.subsetErr then { st with cumulative := cum }
      else { cumulative := cum, subsets := st.subsets ++ [subsetName f] }

/-- The whole loop: fold `processCandidate` over the ranked valid fonts. -/
def processAll (st : LoopState) : List FileEntry → LoopState
  | [] => st
  | f :: fs => processAll (processCandidate st f) fs

/-- The code points candidate `f` contributes when processed in state `st`:
the `unique_cps = cps - cumulative_codepoints` the code computes, and the
empty set when the candidate is skipped before that point. -/
def contribution (st : LoopState) (f : FileEntry) : Finset Nat :=
  if f.loopReadErr then ∅
  else if !f.hasCmap then ∅
  else f.coverage \ st.cumulative

/-- The per-candidate contributions along a run of the loop, in order. -/
def contributions (st : LoopState) : List FileEntry → List (Finset Nat)
  | [] => []
  | f :: fs => contribution st f :: contributions (processCandidate st f) fs

/-- An exception is raised while processing `f` in state `st`: either the
re-open/cmap-access stage raises, or the candidate reaches the subset/save
stage (cmap present, fresh code points exist) and that stage raises. -/
def raisesError (st : LoopState) (f : FileEntry) : Prop :=
  f.loopReadErr = true ∨
    (f.loopReadErr = false ∧ f.hasCmap = true ∧
      f.coverage \ st.cumulative ≠ ∅ ∧ f.subsetErr = true)

instance (st : LoopState) (f : FileEntry) : Decidable (raisesError st f) := by
  unfold raisesError
  infer_instance

theorem processCandidate_cumulative (st : LoopState) (f : FileEntry) :
    (processCandidate st f).cumulative = st.cumulative ∪ contribution st f := by
  by_cases h1 : f.loopReadErr
  · simp [processCandidate, contribution, h1]
  · by_cases h2 : f.hasCmap
    · by_cases h3 : f.coverage \ st.cumulative = ∅
      · simp [processCandidate, contribution, h1, h2, h3]
      · by_cases h4 : f.subsetErr <;>
          simp [processCandidate, contribution, h1, h2, h3, h4]
    · simp [processCandidate, contribution, h1, h2]

theorem processCandidate_cumulative_mono (st : LoopState) (f : FileEntry) :
    st.cumulative ⊆ (processCandidate st f).cumulative := by
  rw [processCandidate_cumulative]
  exact Finset.subset_union_left

theorem processAll_cumulative_mono (st : LoopState) (fs : List FileEntry) :
    st.cumulative ⊆ (processAll st fs).cumulative := by
  induction fs generalizing st with
  | nil => exact subset_rfl
  | cons f fs ih =>
    exact (processCandidate_cumulative_mono st f).trans (ih _)

theorem processAll_append (st : LoopState) (l₁ l₂ : List FileEntry) :
    processAll st (l₁ ++ l₂) = processAll (processAll st l₁) l₂ := by
  induction l₁ generalizing st with
  | nil => rfl
  | cons f fs ih => simp [processAll, ih]

theorem processAll_cumulative (st : LoopState) (fs : List FileEntry) :
    (processAll st fs).cumulative =
      st.cumulative ∪ (contributions st fs).foldr (· ∪ ·) ∅ := by
  induction fs generalizing st with
  | nil => simp [processAll, contributions]
  | cons f fs ih =>
    simp only [processAll, contributions, List.foldr]
    rw [ih, processCandidate_cumulative, Finset.union_assoc]

theorem contribution_disjoint (st : LoopState) (f : FileEntry) :
    Disjoint (contribution st f) st.cumulative := by
  by_cases h1 : f.loopReadErr
  · simp [contribution, h1]
  · by_cases h2 : f.hasCmap
    · simpa [contribution, h1, h2] using Finset.sdiff_disjoint
    · simp [contribution, h1, h2]

theorem contributions_disjoint_state (st : LoopState) (fs : List FileEntry) :
    ∀ s ∈ contributions st fs, Disjoint s st.cumulative := by
  induction fs generalizing st with
  | nil => simp [contributions]
  | cons f fs ih =>
    intro s hs
    rcases List.mem_cons.mp hs with rfl | hs
    · exact contribution_disjoint st f
    · have := ih (processCandidate st f) s hs
      exact Finset.disjoint_of_subset_right
        (processCandidate_cumulative_mono st f) this

theorem contributions_pairwise_disjoint (st : LoopState) (fs : List FileEntry) :
    (contributions st fs).Pairwise Disjoint := by
  induction fs generalizing st with
  | nil => simp [contributions]
  | cons f fs ih =>
    refine List.pairwise_cons.mpr ⟨?_, ih _⟩
    intro s hs
    have hd := contributions_disjoint_state (processCandidate st f) fs s hs
    have hsub : contribution st f ⊆ (processCandidate st f).cumulative := by
      rw [processCandidate_cumulative]
      exact Finset.subset_union_right
    exact Finset.disjoint_of_subset_left hsub hd.symm

theorem processAll_subsets_mem (st : LoopState) (fs : List FileEntry) :
    ∀ x ∈ (processAll st fs).subsets,
      x ∈ st.subsets ∨ ∃ f ∈ fs, x = subsetName f := by
  induction fs generalizing st with
  | nil => intro x hx; exact Or.inl hx
  | cons f fs ih =>
    intro x hx
    rcases ih (processCandidate st f) x hx with hx' | ⟨g, hg, rfl⟩
    · have : x ∈ st.subsets ++ [subsetName f] ∨ x ∈ st.subsets := by
        by_cases h1 : f.loopReadErr
        · exact Or.inr (by simpa [processCandidate, h1] using hx')
        · by_cases h2 : f.hasCmap
          · by_cases h3 : f.coverage \ st.cumulative = ∅
            · exact Or.inr (by simpa [processCandidate, h1, h2, h3] using hx')
            · by_cases h4 : f.subsetErr
              · exact Or.inr
                  (by simpa [processCandidate, h1, h2, h3, h4] using hx')
              · exact Or.inl
                  (by simpa [processCandidate, h1, h2, h3, h4] using hx')
          · exact Or.inr (by simpa [processCandidate, h1, h2] using hx')
      rcases this with h | h
      · rcases List.mem_append.mp h with h' | h'
        · exact Or.inl h'
        · exact Or.inr ⟨f, List.mem_cons_self f fs, by simpa using h'⟩
      · exact Or.inl h
    · exact Or.inr ⟨g, List.mem_cons_of_mem f hg, rfl⟩

/-! ### Whole-unit model (source `process_locale_weight`, lines 34-158)

The unit's filesystem environment and library behaviour are inputs:
whether the weight directory exists, its entries in `os.listdir`
enumeration order, and whether the merge/rename/save block raises
(`mergeErr`, covering `merger.merge`, `rename_font` and
`merged_font.save`). The result records the outcome together with the
observable effects the claims talk about. -/

structure UnitInput where
  locale : String
  weight : String
  dirExists : Bool
  files : List FileEntry
  mergeErr : Bool
deriving DecidableEq

/-- The outcome of one unit, mirroring the return paths of
`process_locale_weight`. -/
inductive UnitOutcome
  | missingFolder
  | insufficientCandidates
  | nothingToMerge
  | mergeFailed
  | saved
deriving DecidableEq

/-- Observable effects and outcome of one unit. `openedForValidation` lists
the files the validation pass calls `TTFont` on, in order; `loopState` is
the extraction loop's final state; `outputWritten` is the saved output
path, if any; `tempCreated`/`tempRemoved` track the unit-scoped temporary
directory `TempSubsetFonts/<locale>_<weight>`. -/
structure UnitResult where
  outcome : UnitOutcome
  openedForValidation : List String
  loopState : LoopState
  outputWritten : Option String
  tempCreated : Bool
  tempRemoved : Bool
deriving DecidableEq

/-- The directory entries passing `is_valid_font`, in enumeration order
(source line 43). -/
def qualifyingFiles (u : UnitInput) : List FileEntry :=
  u.files.filter (fun f => is_valid_font f.name)

/-- The qualifying files after `font_paths_all.sort(key=sort_key)`
(source line 56). -/
def sortedCandidates (priority : PriorityTable) (u : UnitInput) :
    List FileEntry :=
  sortK (fun f => sort_key priority f.name) (qualifyingFiles u)

/-- The validation pass (source lines 58-71): keep the files whose
`TTFont` open succeeds and whose unitsPerEm is 1000; a read error or a
different unitsPerEm excludes the file, non-fatally. -/
def validFonts (priority : PriorityTable) (u : UnitInput) : List FileEntry :=
  (sortedCandidates priority u).filter (fun f => !f.readErr && f.upem == 1000)

/-- The extraction loop run over the unit's valid fonts. -/
def unitLoop (priority : PriorityTable) (u : UnitInput) : LoopState :=
  processAll initLoopState (validFonts priority u)

/-- Source line 143: `output_path = os.path.join(output_dir,
f"{locale}-NotoSansMultilanguage-{weight}.ttf")`. -/
def outputName (locale weight : String) : String :=
  "NotoMultilanguageFonts/" ++ locale ++ "-NotoSansMultilanguage-" ++
    weight ++ ".ttf"

/-- Source `process_locale_weight`, as the map from a unit's environment
to its outcome and effects. The ranking table is a parameter; the source
reads it as `locale_priority[locale]`. -/
def process_locale_weight (priority : PriorityTable) (u : UnitInput) :
    UnitResult :=
  if !u.dirExists then
    ⟨.missingFolder, [], initLoopState, none, false, false⟩
  else if (qualifyingFiles u).length < 2 then
    ⟨.insufficientCandidates, [], initLoopState, none, false, false⟩
  else
    let opened := (sortedCandidates priority u).map FileEntry.name
    let st := unitLoop priority u
    if st.subsets = [] then
      ⟨.nothingToMerge, opened, st, none, true, true⟩
    else if u.mergeErr then
      ⟨.mergeFailed, opened, st, none, true, true⟩
    else
      ⟨.saved, opened, st, some (outputName u.locale u.weight), true, true⟩

/-- The scheduler (source `main`): every (ranking table, unit) task is
processed independently; results are collected per task. -/
def runUnits (tasks : List (PriorityTable × UnitInput)) : List UnitResult :=
  tasks.map (fun t => process_locale_weight t.1 t.2)

/-! ### Sample inputs used to instantiate hypotheses -/

/-- A well-behaved candidate covering code points 0 and 1. -/
def entryA : FileEntry := ⟨"a.ttf", false, 1000, true, {0, 1}, false, false⟩

/-- A well-behaved candidate covering code points 1 and 2. -/
def entryB : FileEntry := ⟨"b.ttf", false, 1000, true, {1, 2}, false, false⟩

/-- A candidate whose subset/save step raises after a fresh contribution. -/
def errEntry : FileEntry := ⟨"c.ttf", false, 1000, true, {5}, false, true⟩

/-- A two-candidate unit for the sc locale's Regular weight. -/
def sampleUnit : UnitInput := ⟨"sc", "Regular", true, [entryA, entryB], false⟩

/-- A candidate whose name matches the `notosansjp` ranking key. -/
def entryJP : FileEntry :=
  ⟨"NotoSansJP-Regular.ttf", false, 1000, true, {3}, false, false⟩

/-- A candidate matching no ranking key. -/
def entryX : FileEntry := ⟨"x.ttf", false, 1000, true, {7}, false, false⟩

/-- A unit whose enumeration lists the unmatched candidate first, so the
ranking sort actually reorders it behind the matched one. -/
def rankUnit : UnitInput := ⟨"sc", "Regular", true, [entryX, entryJP], false⟩

/-- A qualifying candidate rejected by validation (unitsPerEm 2048). -/
def badA : FileEntry := ⟨"a.ttf", false, 2048, true, {0, 1}, false, false⟩

/-- Another qualifying candidate rejected by validation. -/
def badB : FileEntry := ⟨"b.ttf", false, 2048, true, {1, 2}, false, false⟩

/-- A unit whose two qualifying candidates are both rejected, so the loop
produces no subset fonts. -/
def emptyUnit : UnitInput := ⟨"sc", "Regular", true, [badA, badB], false⟩

/-- A unit with two qualifying candidates of which exactly one survives
validation. -/
def mixedUnit : UnitInput := ⟨"sc", "Regular", true, [entryA, badB], false⟩

/-- A unit whose directory holds a single qualifying file. -/
def loneUnit : UnitInput := ⟨"sc", "Regular", true, [entryA], false⟩

/-! ### Claim C1 (error handling in the per-candidate loop) -/

/-- C1, as stated, is false: a candidate whose subset/save step raises is
an error case of the loop, yet the cumulative code-point set after it
differs from the set before it, because
`cumulative_codepoints.update(unique_cps)` runs before the fallible
subset/save code. The partial list is unchanged, the cumulative set is
not. -/
theorem C1_counterexample :
    raisesError initLoopState errEntry ∧
    (processCandidate initLoopState errEntry).subsets =
      initLoopState.subsets ∧
    (processCandidate initLoopState errEntry).cumulative ≠
      initLoopState.cumulative := by
  decide

/-- C1 amended: any per-candidate error is caught, the loop continues
with the remaining candidates, and the failed candidate appends no
partial resource; an error at the re-open/cmap stage leaves the whole
state unchanged, while an extraction/save error happens after the
contribution was added, so the cumulative set then equals the previous
set united with the candidate's contribution. -/
theorem C1_error_caught (st : LoopState) (f : FileEntry)
    (rest : List FileEntry) (h : raisesError st f) :
    processAll st (f :: rest) = processAll (processCandidate st f) rest ∧
    (processCandidate st f).subsets = st.subsets ∧
    (f.loopReadErr = true → processCandidate st f = st) ∧
    (f.loopReadErr = false →
      (processCandidate st f).cumulative =
        st.cumulative ∪ (f.coverage \ st.cumulative)) := by
  refine ⟨rfl, ?_, ?_, ?_⟩
  · rcases h with hre | ⟨hre, hcm, hne, hse⟩
    · simp [processCandidate, hre]
    · simp [processCandidate, hre, hcm, hne, hse]
  · intro h'
    simp [processCandidate, h']
  · intro h'
    rcases h with hre | ⟨_, hcm, hne, hse⟩
    · exact absurd h' (by simp [hre])
    · by_cases h4 : f.subsetErr <;>
        simp [processCandidate, h', hcm, hne, h4]

theorem C1_error_caught_witness :
    raisesError initLoopState errEntry ∧
    (processAll initLoopState (errEntry :: []) =
        processAll (processCandidate initLoopState errEntry) [] ∧
      (processCandidate initLoopState errEntry).subsets =
        initLoopState.subsets ∧
      (errEntry.loopReadErr = true →
        processCandidate initLoopState errEntry = initLoopState) ∧
      (errEntry.loopReadErr = false →
        (processCandidate initLoopState errEntry).cumulative =
          initLoopState.cumulative ∪
            (errEntry.coverage \ initLoopState.cumulative))) :=
  ⟨by decide, C1_error_caught initLoopState errEntry [] (by decide)⟩

/-! ### Claim C2 (monotone growth of the cumulative set) -/

/-- C2: along a unit's loop the cumulative set is non-decreasing — after
any prefix of the valid candidates it is contained in the final set — and
the final set equals the union of the per-candidate contributions. -/
theorem C2_monotone_union (priority : PriorityTable) (u : UnitInput)
    (pre post : List FileEntry)
    (h : validFonts priority u = pre ++ post) :
    (processAll initLoopState pre).cumulative ⊆
      (unitLoop priority u).cumulative ∧
    (unitLoop priority u).cumulative =
      (contributions initLoopState (validFonts priority u)).foldr
        (· ∪ ·) ∅ := by
  constructor
  · rw [unitLoop, h, processAll_append]
    exact processAll_cumulative_mono _ post
  · rw [unitLoop, processAll_cumulative]
    simp [initLoopState]

theorem C2_monotone_union_witness :
    validFonts scPriority sampleUnit = [entryA] ++ [entryB] ∧
    ((processAll initLoopState [entryA]).cumulative ⊆
        (unitLoop scPriority sampleUnit).cumulative ∧
      (unitLoop scPriority sampleUnit).cumulative =
        (contributions initLoopState
            (validFonts scPriority sampleUnit)).foldr (· ∪ ·) ∅) :=
  ⟨by decide,
    C2_monotone_union scPriority sampleUnit [entryA] [entryB] (by decide)⟩

/-! ### Claim C3 (contributions partition the final cumulative set) -/

/-- C3: for any unit, the per-candidate contribution sets (each computed
by the loop as the candidate's coverage minus the cumulative set at its
turn, empty for skipped candidates) are pairwise disjoint and their union
is the final cumulative set. -/
theorem C3_partition (priority : PriorityTable) (u : UnitInput) :
    (contributions initLoopState (validFonts priority u)).Pairwise
      Disjoint ∧
    (contributions initLoopState (validFonts priority u)).foldr
        (· ∪ ·) ∅ =
      (unitLoop priority u).cumulative := by
  constructor
  · exact contributions_pairwise_disjoint _ _
  · rw [unitLoop, processAll_cumulative]
    simp [initLoopState]

/-! ### Claim C4 (priority ranking of candidates) -/

theorem sort_key_of_no_match (p : PriorityTable) (name : String)
    (h : matchesTable p name = false) : sort_key p name = 99 := by
  unfold sort_key
  have hnone : p.find? (fun kv => containsSub kv.1 (lowerName name)) = none := by
    rw [List.find?_eq_none]
    intro kv hkv hc
    simp only [matchesTable, List.any_eq_false] at h
    exact h kv hkv hc
  rw [hnone]

theorem sort_key_lt_of_match (p : PriorityTable) (name : String)
    (h99 : ∀ kv ∈ p, kv.2 < 99)
    (h : matchesTable p name = true) : sort_key p name < 99 := by
  unfold sort_key
  cases hfind : p.find? (fun kv => containsSub kv.1 (lowerName name)) with
  | none =>
    exfalso
    rw [List.find?_eq_none] at hfind
    simp only [matchesTable, List.any_eq_true] at h
    rcases h with ⟨kv, hkv, hc⟩
    exact hfind kv hkv hc
  | some kv =>
    exact h99 kv (List.mem_of_find?_eq_some hfind)

/-- C4: for any unit's qualifying files and any ranking table whose
priorities all lie below the default 99, the ranked candidate list is a
permutation of the qualifying files, is sorted by `sort_key` (the priority
of the first table key occurring in the lowercased name, 99 when none
does), is stable (files of equal key keep their enumeration order), and
places every unmatched file after every matched one; moreover every table
of the source's `locale_priority` satisfies the required bound, its
priorities all being below 99. -/
theorem C4_ranking_sort (priority : PriorityTable) (u : UnitInput) (v : Nat)
    (h99 : ∀ kv ∈ priority, kv.2 < 99) :
    (sortedCandidates priority u).Perm (qualifyingFiles u) ∧
    (sortedCandidates priority u).Pairwise
      (fun a b => sort_key priority a.name ≤ sort_key priority b.name) ∧
    (sortedCandidates priority u).filter
        (fun f => sort_key priority f.name == v) =
      (qualifyingFiles u).filter
        (fun f => sort_key priority f.name == v) ∧
    (sortedCandidates priority u).Pairwise
      (fun a b => matchesTable priority a.name = false →
        matchesTable priority b.name = false) ∧
    (∀ e ∈ locale_priority, ∀ kv ∈ e.2, kv.2 < 99) := by
  refine ⟨sortK_perm _ _, sortK_sorted _ _, sortK_filter_key _ _ _, ?_,
    by decide⟩
  refine (sortK_sorted (fun f => sort_key priority f.name)
    (qualifyingFiles u)).imp ?_
  intro a b hle ha
  by_contra hb
  have hbm : matchesTable priority b.name = true := by
    simpa using hb
  have h1 : sort_key priority a.name = 99 := sort_key_of_no_match _ _ ha
  have h2 : sort_key priority b.name < 99 :=
    sort_key_lt_of_match _ _ h99 hbm
  omega

theorem C4_ranking_sort_witness :
    (∀ kv ∈ scPriority, kv.2 < 99) ∧
    ((sortedCandidates scPriority rankUnit).Perm
        (qualifyingFiles rankUnit) ∧
      (sortedCandidates scPriority rankUnit).Pairwise
        (fun a b => sort_key scPriority a.name ≤ sort_key scPriority b.name) ∧
      (sortedCandidates scPriority rankUnit).filter
          (fun f => sort_key scPriority f.name == 99) =
        (qualifyingFiles rankUnit).filter
          (fun f => sort_key scPriority f.name == 99) ∧
      (sortedCandidates scPriority rankUnit).Pairwise
        (fun a b => matchesTable scPriority a.name = false →
          matchesTable scPriority b.name = false) ∧
      (∀ e ∈ locale_priority, ∀ kv ∈ e.2, kv.2 < 99)) :=
  ⟨by decide, C4_ranking_sort scPriority rankUnit 99 (by decide)⟩

/-! ### Claim C5 (fully redundant candidates are skipped) -/

/-- C5: a candidate whose coverage is contained in the cumulative set at
its turn leaves the loop state unchanged (no cumulative growth, no partial
appended), and — when no other candidate saves a subset under the same
name — its subset file name never reaches the consolidation input. -/
theorem C5_redundant_skipped (st : LoopState) (f : FileEntry)
    (cs : List FileEntry)
    (hsub : f.coverage ⊆ st.cumulative)
    (hnotin : subsetName f ∉ st.subsets)
    (hdist : ∀ g ∈ cs, subsetName g ≠ subsetName f) :
    processCandidate st f = st ∧
    subsetName f ∉ (processAll st (f :: cs)).subsets := by
  have huniq : f.coverage \ st.cumulative = ∅ :=
    Finset.sdiff_eq_empty_iff_subset.mpr hsub
  have hskip : processCandidate st f = st := by
    by_cases h1 : f.loopReadErr
    · simp [processCandidate, h1]
    · by_cases h2 : f.hasCmap
      · simp [processCandidate, h1, h2, huniq]
      · simp [processCandidate, h1, h2]
  refine ⟨hskip, ?_⟩
  intro hmem
  have : processAll st (f :: cs) = processAll st cs := by
    simp [processAll, hskip]
  rw [this] at hmem
  rcases processAll_subsets_mem st cs _ hmem with h | ⟨g, hg, heq⟩
  · exact hnotin h
  · exact hdist g hg heq.symm

theorem C5_redundant_skipped_witness :
    entryB.coverage ⊆ ({0, 1, 2} : Finset Nat) ∧
    subsetName entryB ∉ (⟨{0, 1, 2}, []⟩ : LoopState).subsets ∧
    (∀ g ∈ [entryA], subsetName g ≠ subsetName entryB) ∧
    (processCandidate ⟨{0, 1, 2}, []⟩ entryB = ⟨{0, 1, 2}, []⟩ ∧
      subsetName entryB ∉
        (processAll ⟨{0, 1, 2}, []⟩ (entryB :: [entryA])).subsets) :=
  ⟨by decide, by decide, by decide,
    C5_redundant_skipped ⟨{0, 1, 2}, []⟩ entryB [entryA]
      (by decide) (by decide) (by decide)⟩

/-! ### Claim C6 (fewer than two qualifying files) -/

/-- C6: when the weight directory exists but holds fewer than two
qualifying files, the unit returns the insufficient-candidates failure
immediately: no file is opened for validation, the loop never runs, no
output is written, and no temporary workspace is created. -/
theorem C6_insufficient (priority : PriorityTable) (u : UnitInput)
    (hdir : u.dirExists = true)
    (hlt : (qualifyingFiles u).length < 2) :
    process_locale_weight priority u =
      ⟨.insufficientCandidates, [], initLoopState, none, false, false⟩ := by
  rw [process_locale_weight]
  rw [hdir]
  simp only [Bool.not_true, Bool.false_eq_true, if_false]
  rw [if_pos hlt]

theorem C6_insufficient_witness :
    loneUnit.dirExists = true ∧
    (qualifyingFiles loneUnit).length < 2 ∧
    process_locale_weight scPriority loneUnit =
      ⟨.insufficientCandidates, [], initLoopState, none, false, false⟩ :=
  ⟨by decide, by decide,
    C6_insufficient scPriority loneUnit (by decide) (by decide)⟩

/-! ### Claim C7 (empty partial list) -/

/-- C7: a unit that reaches the loop but ends it with no subset fonts
fails with the nothing-to-merge outcome: no output is written and the
temporary workspace is removed; and any task list is processed pointwise,
so the failure cannot influence another unit's result. -/
theorem C7_nothing_to_merge (priority : PriorityTable) (u : UnitInput)
    (tasks : List (PriorityTable × UnitInput)) (i : Nat)
    (hdir : u.dirExists = true)
    (hge : 2 ≤ (qualifyingFiles u).length)
    (hempty : (unitLoop priority u).subsets = []) :
    (process_locale_weight priority u).outcome =
      UnitOutcome.nothingToMerge ∧
    (process_locale_weight priority u).outputWritten = none ∧
    (process_locale_weight priority u).tempRemoved = true ∧
    (runUnits tasks)[i]? =
      (tasks[i]?).map (fun t => process_locale_weight t.1 t.2) := by
  have hnlt : ¬ (qualifyingFiles u).length < 2 := Nat.not_lt.mpr hge
  refine ⟨?_, ?_, ?_, ?_⟩ <;>
    simp [process_locale_weight, runUnits, hdir, hnlt, hempty]

theorem C7_nothing_to_merge_witness :
    emptyUnit.dirExists = true ∧
    2 ≤ (qualifyingFiles emptyUnit).length ∧
    (unitLoop scPriority emptyUnit).subsets = [] ∧
    ((process_locale_weight scPriority emptyUnit).outcome =
        UnitOutcome.nothingToMerge ∧
      (process_locale_weight scPriority emptyUnit).outputWritten = none ∧
      (process_locale_weight scPriority emptyUnit).tempRemoved = true ∧
      (runUnits [(scPriority, emptyUnit)])[0]? =
        ([(scPriority, emptyUnit)][0]?).map
          (fun t => process_locale_weight t.1 t.2)) :=
  ⟨by decide, by decide, by decide,
    C7_nothing_to_merge scPriority emptyUnit [(scPriority, emptyUnit)] 0
      (by decide) (by decide) (by decide)⟩

/-! ### Claim C8 (temporary workspace cleanup) -/

/-- C8: whenever the unit-scoped temporary directory was created, it has
been removed by the time the unit returns — on the nothing-to-merge path,
the merge-failure path and the success path alike. -/
theorem C8_cleanup (priority : PriorityTable) (u : UnitInput)
    (h : (process_locale_weight priority u).tempCreated = true) :
    (process_locale_weight priority u).tempRemoved = true := by
  by_cases h1 : u.dirExists
  · by_cases h2 : (qualifyingFiles u).length < 2
    · simp [process_locale_weight, h1, h2] at h
    · by_cases h3 : (unitLoop priority u).subsets = []
      · simp [process_locale_weight, h1, h2, h3]
      · by_cases h4 : u.mergeErr <;>
          simp [process_locale_weight, h1, h2, h3, h4]
  · simp [process_locale_weight, h1] at h

theorem C8_cleanup_witness :
    (process_locale_weight scPriority sampleUnit).tempCreated = true ∧
    (process_locale_weight scPriority sampleUnit).tempRemoved = true :=
  ⟨by decide, C8_cleanup scPriority sampleUnit (by decide)⟩

/-! ### Claim C9 (deterministic re-run) -/

/-- C9: two runs of a unit on identical inputs produce identical results —
the same ranked candidate order, the same per-candidate contributions and
the same output — and the output file name is the deterministic function
of locale and weight, present exactly on the saved outcome. -/
theorem C9_deterministic (priority : PriorityTable) (u₁ u₂ : UnitInput)
    (h : u₁ = u₂) :
    process_locale_weight priority u₁ = process_locale_weight priority u₂ ∧
    sortedCandidates priority u₁ = sortedCandidates priority u₂ ∧
    contributions initLoopState (validFonts priority u₁) =
      contributions initLoopState (validFonts priority u₂) ∧
    (process_locale_weight priority u₁).outputWritten =
      (process_locale_weight priority u₂).outputWritten ∧
    (process_locale_weight priority u₁).outputWritten =
      (if (process_locale_weight priority u₁).outcome = UnitOutcome.saved
        then some (outputName u₁.locale u₁.weight) else none) := by
  subst h
  refine ⟨rfl, rfl, rfl, rfl, ?_⟩
  by_cases h1 : u₁.dirExists
  · by_cases h2 : (qualifyingFiles u₁).length < 2
    · simp [process_locale_weight, h1, h2]
    · by_cases h3 : (unitLoop priority u₁).subsets = []
      · simp [process_locale_weight, h1, h2, h3]
      · by_cases h4 : u₁.mergeErr <;>
          simp [process_locale_weight, h1, h2, h3, h4]
  · simp [process_locale_weight, h1]

theorem C9_deterministic_witness :
    sampleUnit = sampleUnit ∧
    (process_locale_weight scPriority sampleUnit =
        process_locale_weight scPriority sampleUnit ∧
      sortedCandidates scPriority sampleUnit =
        sortedCandidates scPriority sampleUnit ∧
      contributions initLoopState (validFonts scPriority sampleUnit) =
        contributions initLoopState (validFonts scPriority sampleUnit) ∧
      (process_locale_weight scPriority sampleUnit).outputWritten =
        (process_locale_weight scPriority sampleUnit).outputWritten ∧
      (process_locale_weight scPriority sampleUnit).outputWritten =
        (if (process_locale_weight scPriority sampleUnit).outcome =
            UnitOutcome.saved
          then some (outputName sampleUnit.locale sampleUnit.weight)
          else none)) :=
  ⟨rfl, C9_deterministic scPriority sampleUnit sampleUnit rfl⟩

/-! ### Claim C10 (two-candidate check precedes validation) -/

/-- C10: the minimum-of-two check counts name-qualifying files before
validation, so a unit whose validation leaves exactly one candidate does
not fail with insufficient candidates: that lone candidate's subset is the
single consolidation input and, when merging succeeds, an output file is
written. -/
theorem C10_single_valid (priority : PriorityTable) (u : UnitInput)
    (f : FileEntry)
    (hdir : u.dirExists = true)
    (hge : 2 ≤ (qualifyingFiles u).length)
    (hvalid : validFonts priority u = [f])
    (hread : f.loopReadErr = false)
    (hcmap : f.hasCmap = true)
    (hcov : f.coverage ≠ ∅)
    (hsub : f.subsetErr = false)
    (hmerge : u.mergeErr = false) :
    (process_locale_weight priority u).outcome ≠
      UnitOutcome.insufficientCandidates ∧
    (process_locale_weight priority u).outcome = UnitOutcome.saved ∧
    (process_locale_weight priority u).outputWritten =
      some (outputName u.locale u.weight) ∧
    (unitLoop priority u).subsets = [subsetName f] := by
  have hnlt : ¬ (qualifyingFiles u).length < 2 := Nat.not_lt.mpr hge
  have hloop : (unitLoop priority u).subsets = [subsetName f] := by
    rw [unitLoop, hvalid]
    simp [processAll, processCandidate, hread, hcmap, hsub, initLoopState,
      Finset.sdiff_empty, hcov]
  have hne : ¬ (unitLoop priority u).subsets = [] := by
    rw [hloop]
    simp
  refine ⟨?_, ?_, ?_, hloop⟩ <;>
    simp [process_locale_weight, hdir, hnlt, hne, hmerge]

theorem C10_single_valid_witness :
    mixedUnit.dirExists = true ∧
    2 ≤ (qualifyingFiles mixedUnit).length ∧
    validFonts scPriority mixedUnit = [entryA] ∧
    entryA.loopReadErr = false ∧
    entryA.hasCmap = true ∧
    entryA.coverage ≠ ∅ ∧
    entryA.subsetErr = false ∧
    mixedUnit.mergeErr = false ∧
    ((process_locale_weight scPriority mixedUnit).outcome ≠
        UnitOutcome.insufficientCandidates ∧
      (process_locale_weight scPriority mixedUnit).outcome =
        UnitOutcome.saved ∧
      (process_locale_weight scPriority mixedUnit).outputWritten =
        some (outputName mixedUnit.locale mixedUnit.weight) ∧
      (unitLoop scPriority mixedUnit).subsets = [subsetName entryA]) :=
  ⟨by decide, by decide, by decide, by decide, by decide, by decide,
    by decide, by decide,
    C10_single_valid scPriority mixedUnit entryA (by decide) (by decide)
      (by decide) (by decide) (by decide) (by decide) (by decide)
      (by decide)⟩

end FontMerger
